import Mathlib

/-!
Verification of the FileGenerator core (synthetic-data file generator).

This file shallowly embeds the Python sources:
  src/file_generator/utils/rows.py          (DefaultRowContentGenerator)
  src/file_generator/utils/size_helpers.py  (SizeConstraint, SizeTracker)
  src/file_generator/generators/delimited.py (DelimitedFileGenerator)
  src/file_generator/generators/excel.py     (ExcelFileGenerator)
  src/file_generator/services/generation_service.py (GenerationService)

Python strings become Lean `String`; byte counts are the UTF-8 byte
lengths of those strings; Python `int` becomes `Int` where negative
values are representable by callers (size targets, row targets) and
`Nat` for counters that can only grow.  The writers' unbounded `for`
loops over the lazy row stream are embedded as fuel-indexed recursive
functions returning `Option`: `none` means the fuel ran out before the
loop hit one of its exit conditions; all theorems either supply enough
fuel or quantify over terminating runs.
-/

namespace FileGen

/-! ### String and byte helpers -/

/-- UTF-8 byte length of a string, as Python's `len(s.encode("utf-8"))`. -/
def utf8Len (s : String) : Nat := (s.data.map Char.utf8Size).sum

/-- Number of newline characters in a string. -/
def countNL (s : String) : Nat := s.data.count '\n'

/-- The string contains no newline character. -/
def noNL (s : String) : Prop := ¬ ('\n' ∈ s.data)

instance (s : String) : Decidable (noNL s) := by
  unfold noNL; infer_instance

theorem string_data_append (a b : String) : (a ++ b).data = a.data ++ b.data := by
  cases a; cases b; rfl

theorem strAppend_assoc (a b c : String) : a ++ b ++ c = a ++ (b ++ c) := by
  cases a; cases b; cases c
  show String.mk _ = String.mk _
  simp [String.append]

theorem utf8Len_append (a b : String) : utf8Len (a ++ b) = utf8Len a + utf8Len b := by
  unfold utf8Len
  rw [string_data_append, List.map_append, List.sum_append]

theorem countNL_append (a b : String) : countNL (a ++ b) = countNL a + countNL b := by
  unfold countNL
  rw [string_data_append, List.count_append]

/-! ### SHA-256 (models Python's `hashlib.sha256(...).hexdigest()`)

The round constants and initial hash values are derived from the
fractional parts of the cube/square roots of the first primes, as in
FIPS 180-4; two standard test vectors below check the construction. -/

/-- UTF-8 encoding of a single scalar value, one `Nat` per byte. -/
def utf8Bytes (c : Char) : List Nat :=
  let n := c.toNat
  if n < 128 then [n]
  else if n < 2048 then [192 ||| (n >>> 6), 128 ||| (n &&& 63)]
  else if n < 65536 then
    [224 ||| (n >>> 12), 128 ||| ((n >>> 6) &&& 63), 128 ||| (n &&& 63)]
  else
    [240 ||| (n >>> 18), 128 ||| ((n >>> 12) &&& 63),
     128 ||| ((n >>> 6) &&& 63), 128 ||| (n &&& 63)]

def rotr32 (x n : Nat) : Nat := ((x >>> n) ||| (x <<< (32 - n))) % 4294967296

/-- Binary search step for the integer cube root. -/
def icbrtGo : Nat → Nat → Nat → Nat → Nat
  | 0, lo, _, _ => lo
  | f + 1, lo, hi, n =>
    if hi ≤ lo + 1 then lo
    else
      let mid := (lo + hi) / 2
      if mid * mid * mid ≤ n then icbrtGo f mid hi n else icbrtGo f lo mid n

/-- Integer cube root (largest `r` with `r^3 ≤ n`) for `n < 2^201`. -/
def icbrt (n : Nat) : Nat := icbrtGo 200 0 (2 ^ 67) n

/-- Binary search step for the integer square root. -/
def isqrtGo : Nat → Nat → Nat → Nat → Nat
  | 0, lo, _, _ => lo
  | f + 1, lo, hi, n =>
    if hi ≤ lo + 1 then lo
    else
      let mid := (lo + hi) / 2
      if mid * mid ≤ n then isqrtGo f mid hi n else isqrtGo f lo mid n

/-- Integer square root (largest `r` with `r^2 ≤ n`) for `n < 2^80`. -/
def isqrt (n : Nat) : Nat := isqrtGo 200 0 (2 ^ 40) n

/-- First 32 bits of the fractional part of the square root of `p`. -/
def fracSqrt32 (p : Nat) : Nat := isqrt (p <<< 64) % 4294967296

/-- First 32 bits of the fractional part of the cube root of `p`. -/
def fracCbrt32 (p : Nat) : Nat := icbrt (p <<< 96) % 4294967296

def first64Primes : List Nat :=
  [2, 3, 5, 7, 11, 13, 17, 19, 23, 29, 31, 37, 41, 43, 47, 53,
   59, 61, 67, 71, 73, 79, 83, 89, 97, 101, 103, 107, 109, 113, 127, 131,
   137, 139, 149, 151, 157, 163, 167, 173, 179, 181, 191, 193, 197, 199, 211, 223,
   227, 229, 233, 239, 241, 251, 257, 263, 269, 271, 277, 281, 283, 293, 307, 311]

def sha256K : List Nat := first64Primes.map fracCbrt32

structure Sha256State where
  a : Nat
  b : Nat
  c : Nat
  d : Nat
  e : Nat
  f : Nat
  g : Nat
  h : Nat

def sha256InitState : Sha256State :=
  ⟨fracSqrt32 2, fracSqrt32 3, fracSqrt32 5, fracSqrt32 7,
   fracSqrt32 11, fracSqrt32 13, fracSqrt32 17, fracSqrt32 19⟩

def shaCh (e f g : Nat) : Nat := (e &&& f) ^^^ ((e ^^^ 4294967295) &&& g)

def shaMaj (a b c : Nat) : Nat := (a &&& b) ^^^ (a &&& c) ^^^ (b &&& c)

def bigSigma0 (x : Nat) : Nat := rotr32 x 2 ^^^ rotr32 x 13 ^^^ rotr32 x 22

def bigSigma1 (x : Nat) : Nat := rotr32 x 6 ^^^ rotr32 x 11 ^^^ rotr32 x 25

def smallSigma0 (x : Nat) : Nat := rotr32 x 7 ^^^ rotr32 x 18 ^^^ (x >>> 3)

def smallSigma1 (x : Nat) : Nat := rotr32 x 17 ^^^ rotr32 x 19 ^^^ (x >>> 10)

def sha256Round (s : Sha256State) (ki wi : Nat) : Sha256State :=
  let t1 := (s.h + bigSigma1 s.e + shaCh s.e s.f s.g + ki + wi) % 4294967296
  let t2 := (bigSigma0 s.a + shaMaj s.a s.b s.c) % 4294967296
  ⟨(t1 + t2) % 4294967296, s.a, s.b, s.c, (s.d + t1) % 4294967296, s.e, s.f, s.g⟩

/-- Extend a message schedule by `fuel` further 32-bit words. -/
def buildW : Nat → List Nat → List Nat
  | 0, w => w
  | f + 1, w =>
    let i := w.length
    let s0 := smallSigma0 (w.getD (i - 15) 0)
    let s1 := smallSigma1 (w.getD (i - 2) 0)
    buildW f (w ++ [(w.getD (i - 16) 0 + s0 + w.getD (i - 7) 0 + s1) % 4294967296])

def sha256AddState (x y : Sha256State) : Sha256State :=
  ⟨(x.a + y.a) % 4294967296, (x.b + y.b) % 4294967296, (x.c + y.c) % 4294967296,
   (x.d + y.d) % 4294967296, (x.e + y.e) % 4294967296, (x.f + y.f) % 4294967296,
   (x.g + y.g) % 4294967296, (x.h + y.h) % 4294967296⟩

/-- Compress one 64-byte chunk into the running hash state. -/
def sha256Chunk (hs : Sha256State) (chunk : List Nat) : Sha256State :=
  let w16 := (List.range 16).map fun i =>
    (chunk.getD (4 * i) 0 <<< 24) + (chunk.getD (4 * i + 1) 0 <<< 16) +
      (chunk.getD (4 * i + 2) 0 <<< 8) + chunk.getD (4 * i + 3) 0
  let w := buildW 48 w16
  let s := (sha256K.zip w).foldl (fun acc p => sha256Round acc p.1 p.2) hs
  sha256AddState hs s

/-- FIPS 180-4 padding: `0x80`, zeros to 56 mod 64, 8-byte big-endian bit length. -/
def sha256Pad (msg : List Nat) : List Nat :=
  let len := msg.length
  let zeros := (119 - len % 64) % 64
  msg ++ [128] ++ List.replicate zeros 0 ++
    (List.range 8).map fun k => (8 * len >>> (56 - 8 * k)) &&& 255

def chunksOf64 : Nat → List Nat → List (List Nat)
  | 0, _ => []
  | _, [] => []
  | f + 1, l => l.take 64 :: chunksOf64 f (l.drop 64)

def hexDigit (d : Nat) : Char := Char.ofNat (if d < 10 then 48 + d else 87 + d)

def toHex8 (n : Nat) : String :=
  String.mk ((List.range 8).map fun k => hexDigit ((n >>> (28 - 4 * k)) &&& 15))

/-- `hashlib.sha256(s.encode("utf-8")).hexdigest()`. -/
def sha256hex (s : String) : String :=
  let msg := s.data.flatMap utf8Bytes
  let padded := sha256Pad msg
  let final := (chunksOf64 padded.length padded).foldl sha256Chunk sha256InitState
  toHex8 final.a ++ toHex8 final.b ++ toHex8 final.c ++ toHex8 final.d ++
    toHex8 final.e ++ toHex8 final.f ++ toHex8 final.g ++ toHex8 final.h

set_option maxRecDepth 100000

/-- FIPS 180-4 test vector: digest of the empty message. -/
theorem sha256hex_empty_vector :
    sha256hex "" = "e3b0c44298fc1c149afbf4c8996fb92427ae41e4649b934ca495991b7852b855" := by
  decide

/-- FIPS 180-4 test vector: digest of "abc". -/
theorem sha256hex_abc_vector :
    sha256hex "abc" = "ba7816bf8f01cfea414140de5dae2223b00361a396177a9cb410ff61f20015ad" := by
  decide

/-- Python `str.strip()`: drop whitespace from both ends. -/
def pyStrip (s : String) : String :=
  String.mk (((s.data.dropWhile Char.isWhitespace).reverse.dropWhile
    Char.isWhitespace).reverse)

/-- Python `str.lower()` (ASCII, which is all the file-type tags use). -/
def pyLower (s : String) : String := String.mk (s.data.map Char.toLower)

/-- Python `s.split("\n")`: accumulate the current line, emit on newline. -/
def splitNLGo : List Char → List Char → List (List Char)
  | acc, [] => [acc.reverse]
  | acc, c :: rest =>
    if c = '\n' then acc.reverse :: splitNLGo [] rest
    else splitNLGo (c :: acc) rest

def splitNL (s : String) : List String := (splitNLGo [] s.data).map String.mk

/-! ### rows.py — DefaultRowContentGenerator -/

/-- One step of `header_row`'s loop: `candidate = header.strip()`,
blanks replaced by `Column_<index>` (1-based `index`). -/
def headerRowGo : Nat → List String → List String
  | _, [] => []
  | index, h :: t =>
    (let candidate := pyStrip h
     if candidate = "" then "Column_" ++ toString index else candidate) ::
      headerRowGo (index + 1) t

/-- `DefaultRowContentGenerator.header_row` (it does not read `self`). -/
def header_row (headers : List String) : List String := headerRowGo 1 headers

structure DefaultRowContentGenerator where
  filler_text : String
  seed : String
  digest_length : Nat
deriving DecidableEq

/-- Models `DefaultRowContentGenerator.__init__`:
`self._seed = seed or secrets.token_hex(8)`.  `entropy` stands for the
`secrets.token_hex(8)` value drawn at construction time; Python uses it
exactly when `seed` is `None` or `""` (falsy). -/
def mkDefaultRowContentGenerator (filler_text : String) (seed : Option String)
    (digest_length : Nat) (entropy : String) : DefaultRowContentGenerator :=
  { filler_text := filler_text
    seed :=
      match seed with
      | none => entropy
      | some s => if s = "" then entropy else s
    digest_length := digest_length }

/-- Python `s * n` for strings. -/
def strRepeat (s : String) : Nat → String
  | 0 => ""
  | n + 1 => s ++ strRepeat s n

/-- `DefaultRowContentGenerator._build_cell_value`; the slice
`fragment_pool[start:end]` clamps exactly like `drop`/`take`. -/
def DefaultRowContentGenerator.build_cell_value (g : DefaultRowContentGenerator)
    (header fragment_pool : String) (column_index : Nat) : String :=
  let start := (column_index - 1) * g.digest_length
  let fragment := String.mk ((fragment_pool.data.drop start).take g.digest_length)
  g.filler_text ++ "-" ++ header ++ "-" ++ fragment

/-- The row yielded for `row_index` (1-based) by
`DefaultRowContentGenerator.data_rows`. -/
def DefaultRowContentGenerator.row_at (g : DefaultRowContentGenerator)
    (headers : List String) (row_index : Nat) : List String :=
  let normalized := header_row headers
  let digest_unit_length := (sha256hex "").length
  let minimum_length := g.digest_length * normalized.length + digest_unit_length
  let row_token := g.seed ++ "-" ++ toString row_index
  let row_digest := sha256hex row_token
  let repetitions := minimum_length / row_digest.length + 2
  let fragment_pool := strRepeat row_digest repetitions
  normalized.enum.map fun p => g.build_cell_value p.2 fragment_pool (p.1 + 1)

/-- The first `num_rows` elements of the `data_rows` lazy sequence:
empty when the normalized headers are empty (the generator returns
immediately), otherwise the rows for indices `1..num_rows`. -/
def DefaultRowContentGenerator.firstRows (g : DefaultRowContentGenerator)
    (headers : List String) (num_rows : Nat) : List (List String) :=
  if (header_row headers).isEmpty then []
  else (List.range num_rows).map fun k => g.row_at headers (k + 1)

/-! ### size_helpers.py — SizeConstraint and SizeTracker -/

structure SizeConstraint where
  target_bytes : Int
  tolerance_bytes : Int := 1000000
deriving DecidableEq

structure SizeTracker where
  constraint : SizeConstraint
  estimate_mode : Bool
  bytes_recorded : Nat
deriving DecidableEq

def SizeTracker.target_bytes (t : SizeTracker) : Int := t.constraint.target_bytes

def SizeTracker.tolerance_bytes (t : SizeTracker) : Int := t.constraint.tolerance_bytes

/-- `register`: the `byte_count < 0` ValueError branch cannot fire in
the writers, which only pass UTF-8 lengths; counts are `Nat` here. -/
def SizeTracker.register (t : SizeTracker) (byte_count : Nat) : SizeTracker :=
  { t with bytes_recorded := t.bytes_recorded + byte_count }

def SizeTracker.should_continue (t : SizeTracker) : Bool :=
  (t.bytes_recorded : Int) < t.target_bytes

def SizeTracker.within_tolerance (t : SizeTracker) : Bool :=
  (t.bytes_recorded : Int) ≤ t.target_bytes + t.tolerance_bytes

/-! ### delimited.py — DelimitedFileGenerator -/

/-- `RowContentGenerator` protocol (generators/base.py): a header
sanitizer plus the lazy data-row sequence, indexed from 1.  Per the
protocol contract the sequence is unbounded. -/
structure RowGen where
  header_row : List String → List String
  data_rows : List String → Nat → List String

def DefaultRowContentGenerator.toRowGen (g : DefaultRowContentGenerator) : RowGen :=
  ⟨fun hs => header_row hs, fun hs i => g.row_at hs i⟩

/-- Python's `delimiter.join(row)`. -/
def joinWith (d : String) : List String → String
  | [] => ""
  | [s] => s
  | s :: t :: rest => s ++ d ++ joinWith d (t :: rest)

/-- `DelimitedFileGenerator._encode_row`. -/
def encode_row (row : List String) (delimiter : String) : String :=
  if row.isEmpty || row.all (fun cell => cell = "") then "\n"
  else joinWith delimiter row ++ "\n"

/-- `DelimitedFileGenerator._delimiter_for`. -/
def delimiter_for (file_type : String) : String :=
  if pyLower file_type = "csv" then "," else "\t"

def PROGRESS_INTERVAL : Nat := 25000

def DEFAULT_FLUSH_BYTES : Nat := 4 * 1024 * 1024

/-- The mutable locals of `DelimitedFileGenerator.generate`: the flushed
file contents, the pending row buffer, the byte counters, and the
tracker.  `probe_calls` counts invocations of the cancellation probe. -/
structure DelimSt where
  flushed : String
  buffer : String
  pending_bytes : Nat
  bytes_written : Nat
  data_rows_written : Nat
  tracker : Option SizeTracker
  probe_calls : Nat
deriving DecidableEq

/-- The inner `append_row` closure. -/
def delimAppendRow (st : DelimSt) (row : List String) (delimiter : String) : DelimSt :=
  let encoded := encode_row row delimiter
  { st with
    buffer := st.buffer ++ encoded
    pending_bytes := st.pending_bytes + utf8Len encoded
    bytes_written := st.bytes_written + utf8Len encoded
    tracker := st.tracker.map fun tr => tr.register (utf8Len encoded) }

/-- The inner `flush` closure (when the buffer is empty this is a
no-op, as in the source's early return). -/
def delimFlush (st : DelimSt) : DelimSt :=
  { st with flushed := st.flushed ++ st.buffer, buffer := "", pending_bytes := 0 }

/-- Outcome of a delimited run: the final on-disk contents, plus the
final writer state.  On cancellation only already-flushed bytes are on
disk (the Python buffer list is discarded when the exception unwinds). -/
inductive DelimOutcome where
  | cancelled (file : String) (st : DelimSt)
  | done (file : String) (st : DelimSt)
deriving DecidableEq

/-- The value returned by evaluating
`request.cancel_requested and request.cancel_requested()` when the probe
has been called `n` times before (`False` when the probe is `None`). -/
def probeValue (cancel : Option (Nat → Bool)) (n : Nat) : Bool :=
  match cancel with
  | none => false
  | some probe => probe n

/-- How many probe invocations one cancellation check performs. -/
def probeBump (cancel : Option (Nat → Bool)) : Nat :=
  match cancel with
  | none => 0
  | some _ => 1

/-- One data-row iteration's state change (when not cancelled):
`append_row(row)`, `data_rows_written += 1`, conditional flush. -/
def delimStep (delimiter : String) (flush_bytes : Nat) (row : List String)
    (st : DelimSt) : DelimSt :=
  let st1 := delimAppendRow st row delimiter
  let st2 := { st1 with data_rows_written := st1.data_rows_written + 1 }
  if flush_bytes ≤ st2.pending_bytes then delimFlush st2 else st2

/-- The data-row loop of `DelimitedFileGenerator.generate`, fuel-indexed.
`row_count` is the 1-based `enumerate` counter (also the stream index).
The periodic progress emission does not change writer state and is
omitted. -/
def delimLoop (delimiter : String) (flush_bytes : Nat) (target_rows : Option Int)
    (cancel : Option (Nat → Bool)) (rows : Nat → List String) :
    Nat → Nat → DelimSt → Option DelimOutcome
  | 0, _, _ => none
  | fuel + 1, row_count, st =>
    let st' := { st with probe_calls := st.probe_calls + probeBump cancel }
    if probeValue cancel st.probe_calls then some (.cancelled st'.flushed st')
    else
      let st3 := delimStep delimiter flush_bytes (rows row_count) st'
      let stopByTracker := match st3.tracker with
        | some tr => !tr.should_continue
        | none => false
      let stopByRows := match target_rows with
        | some tr => decide (tr ≤ (st3.data_rows_written : Int))
        | none => false
      if stopByTracker || stopByRows then
        let fin := delimFlush st3
        some (.done fin.flushed fin)
      else delimLoop delimiter flush_bytes target_rows cancel rows fuel (row_count + 1) st3

/-- `DelimitedFileGenerator.generate`: header row, spacer row, flush,
"Headers written" progress, cancellation check, early exits, then the
data-row loop. -/
def delim_generate (flush_bytes : Nat) (file_type : String)
    (size_constraint : Option SizeConstraint) (target_rows : Option Int)
    (cancel : Option (Nat → Bool)) (rg : RowGen) (headers : List String)
    (fuel : Nat) : Option DelimOutcome :=
  let delimiter := delimiter_for file_type
  let tracker := size_constraint.map fun sc => SizeTracker.mk sc false 0
  let sanitized := rg.header_row headers
  let st0 : DelimSt := ⟨"", "", 0, 0, 0, tracker, 0⟩
  let st1 := delimAppendRow st0 sanitized delimiter
  let st2 := delimAppendRow st1 (sanitized.map fun _ => "") delimiter
  let st3 := delimFlush st2
  let st4 := { st3 with probe_calls := st3.probe_calls + probeBump cancel }
  if probeValue cancel st3.probe_calls then some (.cancelled st4.flushed st4)
  else
    let stopByTracker := match st4.tracker with
      | some tr => !tr.should_continue
      | none => false
    if stopByTracker then some (.done st4.flushed st4)
    else
      match target_rows with
      | some tr =>
        if tr ≤ 0 then some (.done st4.flushed st4)
        else delimLoop delimiter flush_bytes (some tr) cancel (rg.data_rows headers) fuel 1 st4
      | none => delimLoop delimiter flush_bytes none cancel (rg.data_rows headers) fuel 1 st4

/-! ### excel.py — ExcelFileGenerator -/

def DEFAULT_PROGRESS_INTERVAL : Nat := 10000

def CELL_OVERHEAD_BYTES : Nat := 8

def MAX_EXCEL_ROWS : Nat := 1048576

/-- `_estimate_row_bytes`. -/
def estimate_row_bytes (row : List String) : Nat :=
  (row.map fun cell => utf8Len cell + CELL_OVERHEAD_BYTES).sum

/-- The mutable locals of `ExcelFileGenerator.generate`.
`overflow_transitions` counts executions of the sheet-overflow branch
(each emits a "Continuing in ..." progress message). -/
structure ExcelSt where
  sheet_row_count : Nat
  sheet_index : Nat
  data_rows_written : Nat
  estimated_bytes : Nat
  tracker : Option SizeTracker
  overflow_transitions : Nat
  probe_calls : Nat
deriving DecidableEq

/-- Sheet titles: `"Data"`, then `"Data 2"`, `"Data 3"`, ... -/
def excelSheetTitle (sheet_index : Nat) : String :=
  if sheet_index = 1 then "Data" else "Data " ++ toString sheet_index

/-- The inner `start_new_sheet` closure: bump the sheet index, append
header and spacer to the fresh sheet, register their estimated bytes. -/
def excelStartNewSheet (headerRow spacerRow : List String) (st : ExcelSt) : ExcelSt :=
  let hb := estimate_row_bytes headerRow
  let sb := estimate_row_bytes spacerRow
  { st with
    sheet_index := st.sheet_index + 1
    sheet_row_count := 2
    estimated_bytes := st.estimated_bytes + hb + sb
    tracker := st.tracker.map fun tr => (tr.register hb).register sb }

inductive ExcelLoopOut where
  | cancelledL (st : ExcelSt)
  | finishedL (st : ExcelSt) (limit_enforced : Bool)
deriving DecidableEq

/-- One data-row iteration's state change for the spreadsheet writer
(when neither cancelled nor at the sheet limit): append the row,
register its estimated bytes, bump the sheet and data counters. -/
def excelStep (row : List String) (st : ExcelSt) : ExcelSt :=
  let row_bytes := estimate_row_bytes row
  let st1 := { st with
    estimated_bytes := st.estimated_bytes + row_bytes
    tracker := st.tracker.map fun (tr : SizeTracker) => tr.register row_bytes }
  { st1 with
    sheet_row_count := st1.sheet_row_count + 1
    data_rows_written := st1.data_rows_written + 1 }

/-- The data-row loop of `ExcelFileGenerator.generate`, fuel-indexed.
`rows_written` is the 1-based `enumerate` counter.  On a sheet-overflow
transition the loop `continue`s, so the current row is skipped and the
next iteration pulls the next row.  Periodic progress emissions do not
change writer state and are omitted. -/
def excelLoop (ignore_excel_limit : Bool) (headerRow spacerRow : List String)
    (target_rows : Option Int) (cancel : Option (Nat → Bool))
    (rows : Nat → List String) :
    Nat → Nat → ExcelSt → Option ExcelLoopOut
  | 0, _, _ => none
  | fuel + 1, rows_written, st =>
    let st' := { st with probe_calls := st.probe_calls + probeBump cancel }
    if probeValue cancel st.probe_calls then some (.cancelledL st')
    else if MAX_EXCEL_ROWS ≤ st'.sheet_row_count then
      if ignore_excel_limit then
        let st1 := excelStartNewSheet headerRow spacerRow st'
        let st2 := { st1 with overflow_transitions := st1.overflow_transitions + 1 }
        excelLoop ignore_excel_limit headerRow spacerRow target_rows cancel rows fuel
          (rows_written + 1) st2
      else some (.finishedL st' true)
    else
      let st2 := excelStep (rows rows_written) st'
      let stopByTracker := match st2.tracker with
        | some tr => !tr.should_continue
        | none => false
      let stopByRows := match target_rows with
        | some tr => decide (tr ≤ (st2.data_rows_written : Int))
        | none => false
      if stopByTracker || stopByRows then some (.finishedL st2 false)
      else
        excelLoop ignore_excel_limit headerRow spacerRow target_rows cancel rows fuel
          (rows_written + 1) st2

/-- Outcome of a spreadsheet run.  `saved` additionally records whether
the two post-loop warning messages were emitted: the byte-mode
shortfall message and the row-mode truncation message. -/
inductive ExcelOutcome where
  | cancelled (st : ExcelSt)
  | saved (st : ExcelSt) (limit_enforced size_shortfall_msg truncation_msg : Bool)
deriving DecidableEq

/-- `ExcelFileGenerator.generate`.  `ignore_excel_limit` is the value of
`getattr(request, "ignore_excel_row_limit", False)`; the public
`FileGenerationRequest` dataclass defines no such field, so for every
request built from it this argument is `False`. -/
def excel_generate (ignore_excel_limit : Bool)
    (size_constraint : Option SizeConstraint) (target_rows : Option Int)
    (cancel : Option (Nat → Bool)) (rg : RowGen) (headers : List String)
    (fuel : Nat) : Option ExcelOutcome :=
  let tracker := size_constraint.map fun sc => SizeTracker.mk sc true 0
  let headerRow := rg.header_row headers
  let spacerRow := headerRow.map fun _ => ""
  let st0 : ExcelSt := ⟨0, 0, 0, 0, tracker, 0, 0⟩
  let st1 := excelStartNewSheet headerRow spacerRow st0
  match excelLoop ignore_excel_limit headerRow spacerRow target_rows cancel
      (rg.data_rows headers) fuel 1 st1 with
  | none => none
  | some (.cancelledL st) => some (.cancelled st)
  | some (.finishedL st limit_enforced) =>
    let size_shortfall := match st.tracker with
      | some tr => tr.should_continue
      | none => false
    let truncation := match target_rows with
      | some t => decide ((st.data_rows_written : Int) < t) && limit_enforced
      | none => false
    some (.saved st limit_enforced size_shortfall truncation)

/-! ### generation_service.py — GenerationService -/

/-- `pathlib.PurePath.suffix` for ordinary destinations: the final
extension (with dot) of the last path component, empty for dotless
names and for a bare leading-dot name. -/
def path_suffix (destination : String) : String :=
  let name := (destination.splitOn "/").getLastD ""
  match name.splitOn "." with
  | [] => ""
  | [_] => ""
  | first :: rest => if first = "" && rest.length = 1 then "" else "." ++ rest.getLastD ""

/-- Python `s.lstrip(".")`. -/
def lstripDots (s : String) : String :=
  String.mk (s.data.dropWhile fun c => c = '.')

/-- The data fields of the `FileGenerationRequest` dataclass
(models.py).  `row_generator` and `cancel_requested` are behavioral and
passed separately to the writer models; the dataclass declares no
`ignore_excel_row_limit` field. -/
structure RequestData where
  destination : String
  file_type : String
  headers : List String
  size_constraint : Option SizeConstraint
  target_rows : Option Int
deriving DecidableEq

/-- What `GenerationService.generate` does before/instead of running a
writer: `attributeError` models the `AttributeError` Python raises when
`request.size_constraint` is `None` and `.target_bytes` is read off it;
`invalidArgument` models the explicit `ValueError`s; `delegated` means
the registered writer's `generate` was invoked. -/
inductive ServiceOutcome where
  | attributeError
  | invalidArgument (message : String)
  | delegated (file_type : String)
deriving DecidableEq

/-- `GenerationService.generate` up to the delegation point.
`registered` is the key set of the type-to-writer registry. -/
def service_generate (registered : List String) (req : RequestData) : ServiceOutcome :=
  match req.size_constraint with
  | none => .attributeError
  | some sc =>
    if sc.target_bytes ≤ 0 then
      .invalidArgument "Target size must be greater than zero bytes."
    else if req.headers.isEmpty then
      .invalidArgument "At least one header value is required."
    else
      let destination_suffix := lstripDots (pyLower (path_suffix req.destination))
      if destination_suffix ≠ "" && destination_suffix ≠ pyLower req.file_type then
        .invalidArgument "Destination extension does not match requested file type."
      else if registered.contains (pyLower req.file_type) then
        .delegated (pyLower req.file_type)
      else
        .invalidArgument "No generator registered for file type."

/-- The registry assembled by `create_default_service` (one spreadsheet
writer for xlsx/xlsm, one delimited writer for csv/tsv/txt). -/
def defaultRegisteredTypes : List String := ["xlsx", "xlsm", "csv", "tsv", "txt"]

/-! ### Supporting lemmas -/

theorem strEmpty_append (s : String) : "" ++ s = s := by
  cases s; rfl

theorem strAppend_empty (s : String) : s ++ "" = s := by
  cases s
  show String.mk _ = String.mk _
  simp [String.append]

theorem countNL_eq_zero_of_noNL {s : String} (h : noNL s) : countNL s = 0 := by
  unfold countNL
  exact List.count_eq_zero.mpr h

theorem countNL_joinWith {d : String} (hd : noNL d) :
    ∀ {row : List String}, (∀ c ∈ row, noNL c) → countNL (joinWith d row) = 0
  | [], _ => by simp [joinWith]; rfl
  | [s], h => by
    simp only [joinWith]
    exact countNL_eq_zero_of_noNL (h s (by simp))
  | s :: t :: rest, h => by
    simp only [joinWith, countNL_append]
    rw [countNL_eq_zero_of_noNL (h s (by simp)), countNL_eq_zero_of_noNL hd,
      countNL_joinWith hd (fun c hc => h c (List.mem_cons_of_mem s hc))]

theorem encode_row_all_empty {row : List String} (d : String)
    (h : ∀ c ∈ row, c = "") : encode_row row d = "\n" := by
  unfold encode_row
  rcases row with _ | ⟨c, cs⟩
  · simp
  · have : (c :: cs).all (fun cell => cell = "") = true := by
      rw [List.all_eq_true]
      intro x hx
      simpa using h x hx
    simp [this]

theorem encode_row_ends_nl (row : List String) (d : String) :
    ∃ s, encode_row row d = s ++ "\n" := by
  unfold encode_row
  by_cases h : row.isEmpty || row.all (fun cell => cell = "")
  · exact ⟨"", by simp [h, strEmpty_append]⟩
  · exact ⟨joinWith d row, by simp [h]⟩

theorem utf8Len_nl : utf8Len "\n" = 1 := by decide

theorem utf8Len_encode_pos (row : List String) (d : String) :
    1 ≤ utf8Len (encode_row row d) := by
  obtain ⟨s, hs⟩ := encode_row_ends_nl row d
  rw [hs, utf8Len_append, utf8Len_nl]
  omega

theorem countNL_encode {d : String} (hd : noNL d) {row : List String}
    (h : ∀ c ∈ row, noNL c) : countNL (encode_row row d) = 1 := by
  unfold encode_row
  by_cases hb : row.isEmpty || row.all (fun cell => cell = "")
  · simp [hb]; rfl
  · simp only [hb, if_false, Bool.false_eq_true, countNL_append]
    rw [countNL_joinWith hd h]
    rfl

theorem delimiter_for_cases (ft : String) :
    delimiter_for ft = "," ∨ delimiter_for ft = "\t" := by
  unfold delimiter_for
  by_cases h : pyLower ft = "csv" <;> simp [h]

theorem delimiter_for_noNL (ft : String) : noNL (delimiter_for ft) := by
  rcases delimiter_for_cases ft with h | h <;> rw [h] <;> decide

theorem utf8Len_delimiter_for (ft : String) : utf8Len (delimiter_for ft) = 1 := by
  rcases delimiter_for_cases ft with h | h <;> rw [h] <;> decide

theorem utf8Len_strRepeat (s : String) : ∀ n, utf8Len (strRepeat s n) = n * utf8Len s
  | 0 => by simp [strRepeat]; rfl
  | n + 1 => by
    simp only [strRepeat, utf8Len_append, utf8Len_strRepeat s n]
    ring

/-- On-disk contents so far: flushed bytes followed by the pending buffer. -/
def DelimSt.content (st : DelimSt) : String := st.flushed ++ st.buffer

theorem delimFlush_content (st : DelimSt) : (delimFlush st).content = st.content := by
  simp [delimFlush, DelimSt.content, strAppend_empty]

theorem delimFlush_flushed (st : DelimSt) : (delimFlush st).flushed = st.content := rfl

theorem delimAppendRow_content (st : DelimSt) (row : List String) (d : String) :
    (delimAppendRow st row d).content = st.content ++ encode_row row d := by
  simp [delimAppendRow, DelimSt.content, strAppend_assoc]

theorem delimStep_content (d : String) (fb : Nat) (row : List String) (st : DelimSt) :
    (delimStep d fb row st).content = st.content ++ encode_row row d := by
  simp only [delimStep, delimAppendRow, delimFlush]
  split <;> simp [DelimSt.content, strAppend_assoc, strAppend_empty]

theorem delimStep_data_rows (d : String) (fb : Nat) (row : List String) (st : DelimSt) :
    (delimStep d fb row st).data_rows_written = st.data_rows_written + 1 := by
  simp only [delimStep, delimAppendRow, delimFlush]
  split <;> rfl

theorem delimStep_tracker (d : String) (fb : Nat) (row : List String) (st : DelimSt) :
    (delimStep d fb row st).tracker =
      st.tracker.map fun tr => tr.register (utf8Len (encode_row row d)) := by
  simp only [delimStep, delimAppendRow, delimFlush]
  split <;> rfl

theorem delimStep_probe (d : String) (fb : Nat) (row : List String) (st : DelimSt) :
    (delimStep d fb row st).probe_calls = st.probe_calls := by
  simp only [delimStep, delimAppendRow, delimFlush]
  split <;> rfl

/-- The concatenated encodings of rows `i, i+1, ..., i+k-1`. -/
def encConcat (rows : Nat → List String) (d : String) : Nat → Nat → String
  | _, 0 => ""
  | i, k + 1 => encode_row (rows i) d ++ encConcat rows d (i + 1) k

theorem encConcat_one (rows : Nat → List String) (d : String) (i : Nat) :
    encConcat rows d i 1 = encode_row (rows i) d := by
  simp [encConcat, strAppend_empty]

theorem countNL_encConcat {d : String} (hd : noNL d) (rows : Nat → List String) :
    ∀ k i, (∀ j, i ≤ j → j < i + k → ∀ c ∈ rows j, noNL c) →
      countNL (encConcat rows d i k) = k
  | 0, _, _ => rfl
  | k + 1, i, h => by
    simp only [encConcat, countNL_append]
    rw [countNL_encode hd (h i (le_refl i) (by omega)),
      countNL_encConcat hd rows k (i + 1) (fun j h1 h2 c hc => h j (by omega) (by omega) c hc)]
    omega

theorem encConcat_ends_nl (rows : Nat → List String) (d : String) (i k : Nat)
    (hk : 1 ≤ k) : ∃ s, encConcat rows d i k = s ++ "\n" := by
  induction k generalizing i with
  | zero => omega
  | succ k ih =>
    rcases Nat.eq_zero_or_pos k with hz | hp
    · subst hz
      rw [encConcat_one]
      exact encode_row_ends_nl (rows i) d
    · obtain ⟨s, hs⟩ := ih (i + 1) hp
      exact ⟨encode_row (rows i) d ++ s, by
        show encode_row (rows i) d ++ encConcat rows d (i + 1) k = _
        rw [hs, strAppend_assoc]⟩

/-- The cancellation probe (possibly absent) never reports a
cancellation request. -/
def probeNeverFires (cancel : Option (Nat → Bool)) : Prop :=
  ∀ n, probeValue cancel n = false

theorem delimLoop_row_mode (d : String) (fb : Nat) (trg : Int)
    (cancel : Option (Nat → Bool)) (rows : Nat → List String)
    (hc : probeNeverFires cancel) :
    ∀ (fuel k i : Nat) (st : DelimSt), st.tracker = none →
      trg = (st.data_rows_written : Int) + (k : Int) →
      1 ≤ k → k ≤ fuel →
      ∃ f fin, delimLoop d fb (some trg) cancel rows fuel i st = some (.done f fin) ∧
        f = st.content ++ encConcat rows d i k ∧
        fin.data_rows_written = st.data_rows_written + k ∧
        fin.tracker = none := by
  intro fuel
  induction fuel with
  | zero => intro k i st _ _ hk hkf; omega
  | succ fuel ih =>
    intro k i st ht htr hk hkf
    obtain ⟨k', rfl⟩ : ∃ k', k = k' + 1 := ⟨k - 1, by omega⟩
    set st' : DelimSt := { st with probe_calls := st.probe_calls + probeBump cancel } with hst'
    have hst'tr : st'.tracker = st.tracker := rfl
    have hst'ct : st'.content = st.content := rfl
    have hst'dw : st'.data_rows_written = st.data_rows_written := rfl
    set st3 := delimStep d fb (rows i) st' with hst3
    have h3tr : st3.tracker = none := by
      rw [hst3, delimStep_tracker, hst'tr, ht]; rfl
    have h3dw : st3.data_rows_written = st.data_rows_written + 1 := by
      rw [hst3, delimStep_data_rows, hst'dw]
    have h3ct : st3.content = st.content ++ encode_row (rows i) d := by
      rw [hst3, delimStep_content, hst'ct]
    simp only [delimLoop, hc st.probe_calls, Bool.false_eq_true, if_false, ← hst', ← hst3,
      h3tr, h3dw]
    rcases Nat.eq_zero_or_pos k' with hz | hp
    · subst hz
      have hstop : decide (trg ≤ ((st.data_rows_written + 1 : Nat) : Int)) = true := by
        apply decide_eq_true
        omega
      simp only [hstop, Bool.or_true, if_true]
      refine ⟨(delimFlush st3).flushed, delimFlush st3, rfl, ?_, ?_, ?_⟩
      · rw [delimFlush_flushed, h3ct]
        simp [encConcat_one]
      · show st3.data_rows_written = st.data_rows_written + 1
        exact h3dw
      · show st3.tracker = none
        exact h3tr
    · have hgo : decide (trg ≤ ((st.data_rows_written + 1 : Nat) : Int)) = false := by
        apply decide_eq_false
        omega
      simp only [hgo, Bool.or_false, if_false]
      obtain ⟨f, fin, heq, hf, hdw, htr'⟩ :=
        ih k' (i + 1) st3 h3tr (by rw [h3dw]; push_cast; push_cast at htr; omega)
          (by omega) (by omega)
      refine ⟨f, fin, heq, ?_, ?_, htr'⟩
      · rw [hf, h3ct, strAppend_assoc]
        rfl
      · rw [hdw, h3dw]
        omega

theorem delimLoop_byte_mode (d : String) (fb : Nat) (sc : SizeConstraint)
    (cancel : Option (Nat → Bool)) (rows : Nat → List String)
    (hc : probeNeverFires cancel) :
    ∀ (fuel i : Nat) (st : DelimSt) (rec : Nat),
      st.tracker = some ⟨sc, false, rec⟩ →
      utf8Len st.content = rec →
      (rec : Int) < sc.target_bytes →
      sc.target_bytes ≤ (rec : Int) + (fuel : Int) →
      ∃ f fin k, delimLoop d fb none cancel rows fuel i st = some (.done f fin) ∧
        1 ≤ k ∧
        fin.data_rows_written = st.data_rows_written + k ∧
        f = st.content ++ encConcat rows d i k ∧
        sc.target_bytes ≤ (utf8Len f : Int) ∧
        (utf8Len f : Int) - sc.target_bytes <
          (utf8Len (encode_row (rows (i + k - 1)) d) : Int) := by
  intro fuel
  induction fuel with
  | zero => intro i st rec _ _ hlt hle; push_cast at hle; omega
  | succ fuel ih =>
    intro i st rec ht hlen hlt hle
    set st' : DelimSt := { st with probe_calls := st.probe_calls + probeBump cancel } with hst'
    have hst'tr : st'.tracker = st.tracker := rfl
    have hst'ct : st'.content = st.content := rfl
    set st3 := delimStep d fb (rows i) st' with hst3
    set len := utf8Len (encode_row (rows i) d) with hlendef
    have hpos : 1 ≤ len := utf8Len_encode_pos (rows i) d
    have h3tr : st3.tracker = some ⟨sc, false, rec + len⟩ := by
      rw [hst3, delimStep_tracker, hst'tr, ht]
      rfl
    have h3dw : st3.data_rows_written = st.data_rows_written + 1 := by
      rw [hst3, delimStep_data_rows]
    have h3ct : st3.content = st.content ++ encode_row (rows i) d := by
      rw [hst3, delimStep_content, hst'ct]
    have h3len : utf8Len st3.content = rec + len := by
      rw [h3ct, utf8Len_append, hlen]
    simp only [delimLoop, hc st.probe_calls, Bool.false_eq_true, if_false, ← hst', ← hst3,
      h3tr, SizeTracker.should_continue, SizeTracker.target_bytes]
    by_cases hstop : sc.target_bytes ≤ ((rec + len : Nat) : Int)
    · have hdec : decide ((((rec + len : Nat) : Int)) < sc.target_bytes) = false := by
        apply decide_eq_false
        omega
      simp only [hdec, Bool.not_false, Bool.true_or, if_true]
      refine ⟨(delimFlush st3).flushed, delimFlush st3, 1, rfl, le_refl 1, ?_, ?_, ?_, ?_⟩
      · show st3.data_rows_written = st.data_rows_written + 1
        exact h3dw
      · rw [delimFlush_flushed, h3ct]
        simp [encConcat_one]
      · rw [delimFlush_flushed, h3len]
        exact hstop
      · rw [delimFlush_flushed, h3len]
        have : i + 1 - 1 = i := by omega
        rw [this, ← hlendef]
        push_cast
        omega
    · have hdec : decide ((((rec + len : Nat) : Int)) < sc.target_bytes) = true := by
        apply decide_eq_true
        omega
      simp only [hdec, Bool.not_true, Bool.false_or, if_false]
      obtain ⟨f, fin, k, heq, hk, hdw, hf, hge, hlast⟩ :=
        ih (i + 1) st3 (rec + len) h3tr h3len (by omega)
          (by push_cast; push_cast at hle; omega)
      refine ⟨f, fin, k + 1, heq, by omega, ?_, ?_, hge, ?_⟩
      · rw [hdw, h3dw]
        omega
      · rw [hf, h3ct, strAppend_assoc]
        rfl
      · have : i + (k + 1) - 1 = i + 1 + k - 1 := by omega
        rw [this]
        exact hlast

theorem delim_generate_row_mode (fb : Nat) (ft : String) (trg : Int)
    (cancel : Option (Nat → Bool)) (rg : RowGen) (hs : List String) (fuel : Nat)
    (hc : probeNeverFires cancel) (htr : 0 < trg) :
    delim_generate fb ft none (some trg) cancel rg hs fuel =
      delimLoop (delimiter_for ft) fb (some trg) cancel (rg.data_rows hs) fuel 1
        ⟨encode_row (rg.header_row hs) (delimiter_for ft) ++
           encode_row ((rg.header_row hs).map fun _ => "") (delimiter_for ft), "", 0,
         utf8Len (encode_row (rg.header_row hs) (delimiter_for ft)) +
           utf8Len (encode_row ((rg.header_row hs).map fun _ => "") (delimiter_for ft)),
         0, none, probeBump cancel⟩ := by
  have h0 := hc 0
  simp only [delim_generate, delimAppendRow, delimFlush, Option.map_none', h0,
    Bool.false_eq_true, if_false]
  rw [if_neg (by omega : ¬ trg ≤ 0)]
  congr 1
  simp [strEmpty_append, strAppend_empty]

theorem delim_generate_byte_mode (fb : Nat) (ft : String) (sc : SizeConstraint)
    (cancel : Option (Nat → Bool)) (rg : RowGen) (hs : List String) (fuel : Nat)
    (hc : probeNeverFires cancel)
    (hsmall : ((utf8Len (encode_row (rg.header_row hs) (delimiter_for ft)) +
        utf8Len (encode_row ((rg.header_row hs).map fun _ => "") (delimiter_for ft)) : Nat) : Int)
        < sc.target_bytes) :
    delim_generate fb ft (some sc) none cancel rg hs fuel =
      delimLoop (delimiter_for ft) fb none cancel (rg.data_rows hs) fuel 1
        ⟨encode_row (rg.header_row hs) (delimiter_for ft) ++
           encode_row ((rg.header_row hs).map fun _ => "") (delimiter_for ft), "", 0,
         utf8Len (encode_row (rg.header_row hs) (delimiter_for ft)) +
           utf8Len (encode_row ((rg.header_row hs).map fun _ => "") (delimiter_for ft)),
         0,
         some ⟨sc, false,
           utf8Len (encode_row (rg.header_row hs) (delimiter_for ft)) +
             utf8Len (encode_row ((rg.header_row hs).map fun _ => "") (delimiter_for ft))⟩,
         probeBump cancel⟩ := by
  have h0 := hc 0
  simp only [delim_generate, delimAppendRow, delimFlush, Option.map_some', h0,
    Bool.false_eq_true, if_false, SizeTracker.register, SizeTracker.should_continue,
    SizeTracker.target_bytes]
  rw [if_neg]
  · congr 1
    simp [strEmpty_append, strAppend_empty]
  · have hd : decide
        ((((0 + utf8Len (encode_row (rg.header_row hs) (delimiter_for ft)) +
            utf8Len (encode_row ((rg.header_row hs).map fun _ => "") (delimiter_for ft)) : Nat)) : Int)
          < sc.target_bytes) = true := by
      apply decide_eq_true
      push_cast
      push_cast at hsmall
      omega
    simp [hd]
    simp only [List.map_const'] at hsmall
    push_cast at hsmall ⊢
    omega

/-- Claim C6: for every delimited-writer run with `target_rows = 10`, no size
constraint, at least one header, and a cancellation probe that never fires
(and header/data cells free of embedded newlines, so that "line" is
well defined), the output file consists of exactly 12 newline-terminated
lines: header, spacer, and 10 data lines. -/
theorem delim_row_mode_twelve_lines
    (fb : Nat) (ft : String) (cancel : Option (Nat → Bool)) (rg : RowGen)
    (hs : List String) (fuel : Nat)
    (hc : probeNeverFires cancel) (hhs : hs ≠ [])
    (hnlh : ∀ c ∈ rg.header_row hs, noNL c)
    (hnlr : ∀ j, 1 ≤ j → j ≤ 10 → ∀ c ∈ rg.data_rows hs j, noNL c)
    (hfuel : 10 ≤ fuel) :
    ∃ f fin, delim_generate fb ft none (some 10) cancel rg hs fuel =
        some (.done f fin) ∧
      fin.data_rows_written = 10 ∧ countNL f = 12 ∧ ∃ s, f = s ++ "\n" := by
  rw [delim_generate_row_mode fb ft 10 cancel rg hs fuel hc (by norm_num)]
  obtain ⟨f, fin, heq, hf, hdw, -⟩ :=
    delimLoop_row_mode (delimiter_for ft) fb 10 cancel (rg.data_rows hs) hc fuel 10 1
      ⟨encode_row (rg.header_row hs) (delimiter_for ft) ++
         encode_row ((rg.header_row hs).map fun _ => "") (delimiter_for ft), "", 0,
       utf8Len (encode_row (rg.header_row hs) (delimiter_for ft)) +
         utf8Len (encode_row ((rg.header_row hs).map fun _ => "") (delimiter_for ft)),
       0, none, probeBump cancel⟩
      rfl (by norm_num) (by norm_num) hfuel
  have hspc : encode_row ((rg.header_row hs).map fun _ => "") (delimiter_for ft) = "\n" :=
    encode_row_all_empty _ (by
      intro c hcm
      obtain ⟨a, -, rfl⟩ := List.mem_map.mp hcm
      rfl)
  refine ⟨f, fin, heq, by rw [hdw], ?_, ?_⟩
  · rw [hf]
    show countNL
      ((encode_row (rg.header_row hs) (delimiter_for ft) ++
        encode_row ((rg.header_row hs).map fun _ => "") (delimiter_for ft)) ++ "" ++
          encConcat (rg.data_rows hs) (delimiter_for ft) 1 10) = 12
    rw [strAppend_empty, countNL_append, countNL_append,
      countNL_encode (delimiter_for_noNL ft) hnlh, hspc,
      countNL_encConcat (delimiter_for_noNL ft) (rg.data_rows hs) 10 1
        (fun j h1 h2 c hcm => hnlr j h1 (by omega) c hcm)]
    rfl
  · obtain ⟨s, hsnl⟩ := encConcat_ends_nl (rg.data_rows hs) (delimiter_for ft) 1 10 (by norm_num)
    rw [hf, hsnl, ← strAppend_assoc]
    exact ⟨_, rfl⟩

/-- Claim C1 (amended): `SizeTracker.should_continue` is true iff
`recorded_bytes < target_bytes`; and for every byte-mode delimited run
(`target_bytes > 0`, no row target, non-empty headers, probe never
fires) in which the header and spacer rows alone do not already reach
the target, the writer stops at the first row that reaches it: the
final file is at least `target_bytes` long and exceeds the target by
less than the encoded byte length of the last data row written. -/
theorem delim_byte_mode_bound
    (fb : Nat) (ft : String) (sc : SizeConstraint) (cancel : Option (Nat → Bool))
    (rg : RowGen) (hs : List String) (fuel : Nat)
    (hc : probeNeverFires cancel) (hpos : 0 < sc.target_bytes) (hhs : hs ≠ [])
    (hsmall : ((utf8Len (encode_row (rg.header_row hs) (delimiter_for ft)) +
        utf8Len (encode_row ((rg.header_row hs).map fun _ => "") (delimiter_for ft)) : Nat) : Int)
        < sc.target_bytes)
    (hfuel : sc.target_bytes ≤ (fuel : Int)) :
    (∀ tr : SizeTracker,
      tr.should_continue = true ↔ (tr.bytes_recorded : Int) < tr.constraint.target_bytes) ∧
    ∃ f fin k, delim_generate fb ft (some sc) none cancel rg hs fuel =
        some (.done f fin) ∧
      1 ≤ k ∧ fin.data_rows_written = k ∧
      sc.target_bytes ≤ (utf8Len f : Int) ∧
      (utf8Len f : Int) - sc.target_bytes <
        (utf8Len (encode_row (rg.data_rows hs k) (delimiter_for ft)) : Int) := by
  constructor
  · intro tr
    simp [SizeTracker.should_continue, SizeTracker.target_bytes]
  rw [delim_generate_byte_mode fb ft sc cancel rg hs fuel hc hsmall]
  obtain ⟨f, fin, k, heq, hk, hdw, hf, hge, hlast⟩ :=
    delimLoop_byte_mode (delimiter_for ft) fb sc cancel (rg.data_rows hs) hc fuel 1
      ⟨encode_row (rg.header_row hs) (delimiter_for ft) ++
         encode_row ((rg.header_row hs).map fun _ => "") (delimiter_for ft), "", 0,
       utf8Len (encode_row (rg.header_row hs) (delimiter_for ft)) +
         utf8Len (encode_row ((rg.header_row hs).map fun _ => "") (delimiter_for ft)),
       0,
       some ⟨sc, false,
         utf8Len (encode_row (rg.header_row hs) (delimiter_for ft)) +
           utf8Len (encode_row ((rg.header_row hs).map fun _ => "") (delimiter_for ft))⟩,
       probeBump cancel⟩
      (utf8Len (encode_row (rg.header_row hs) (delimiter_for ft)) +
         utf8Len (encode_row ((rg.header_row hs).map fun _ => "") (delimiter_for ft)))
      rfl
      (by
        show utf8Len (_ ++ "") = _
        rw [strAppend_empty, utf8Len_append])
      (by exact_mod_cast hsmall)
      (by omega)
  refine ⟨f, fin, k, heq, hk, by rw [hdw]; show 0 + k = k; omega, hge, ?_⟩
  have hidx : 1 + k - 1 = k := by omega
  rw [hidx] at hlast
  exact hlast

/-- A trivial row generator used to instantiate writer runs on concrete
inputs (any object satisfying the `RowContentGenerator` protocol may be
carried by a request). -/
def constGen : RowGen :=
  ⟨fun hs => header_row hs, fun _ i => ["x" ++ toString i, "y", "z"]⟩

/-- Claim C1 counterexample: with `target_bytes = 1` and the single
header `"Name"`, the run stops at the check after the header/spacer
stage: the file is 6 bytes (5 over target), yet the last row written —
the spacer, encoded as the single byte `"\n"` — has length 1, so the
claimed bound "overshoot < encoded length of the last row written"
fails as stated over all requests with a size constraint. -/
theorem delim_byte_mode_bound_cex :
    delim_generate DEFAULT_FLUSH_BYTES "tsv" (some ⟨1, 1000000⟩) none none constGen
        ["Name"] 5 =
      some (.done "Name\n\n" ⟨"Name\n\n", "", 0, 6, 0, some ⟨⟨1, 1000000⟩, false, 6⟩, 0⟩) ∧
    ¬ ((utf8Len "Name\n\n" : Int) - 1 <
        (utf8Len (encode_row ((header_row ["Name"]).map fun _ => "")
          (delimiter_for "tsv")) : Int)) := by
  decide

/-- Claim C2 (amended): for every fixed non-empty seed string, filler
token, digest length, and header list, two fresh
`DefaultRowContentGenerator` instances built from those parameters
yield identical `data_rows` prefixes of every length, whatever entropy
the constructor's `secrets.token_hex(8)` fallback would have drawn. -/
theorem data_rows_deterministic (filler seedStr : String) (dlen : Nat)
    (headers : List String) (num_rows : Nat) (e1 e2 : String) (h : seedStr ≠ "") :
    (mkDefaultRowContentGenerator filler (some seedStr) dlen e1).firstRows headers num_rows =
      (mkDefaultRowContentGenerator filler (some seedStr) dlen e2).firstRows headers num_rows := by
  simp [mkDefaultRowContentGenerator, h]

theorem data_rows_deterministic_witness :
    ("pytest-seed" : String) ≠ "" ∧
    (mkDefaultRowContentGenerator "Data" (some "pytest-seed") 24 "x").firstRows
        ["FirstName", "LastName", "Email"] 2 =
      (mkDefaultRowContentGenerator "Data" (some "pytest-seed") 24 "y").firstRows
        ["FirstName", "LastName", "Email"] 2 :=
  ⟨by decide,
   data_rows_deterministic "Data" "pytest-seed" 24 ["FirstName", "LastName", "Email"] 2
     "x" "y" (by decide)⟩

/-- Claim C2 counterexample: the seed string `""` is falsy in Python, so
`seed or secrets.token_hex(8)` replaces it by fresh constructor-time
entropy; two fresh instances then draw different entropy and produce
different rows — the claim fails at the seed string `""`. -/
theorem data_rows_deterministic_cex :
    (mkDefaultRowContentGenerator "SampleValue" (some "") 48
        "aabbccdd00112233").firstRows ["Name"] 1 ≠
      (mkDefaultRowContentGenerator "SampleValue" (some "") 48
        "99aabbccdd001122").firstRows ["Name"] 1 := by
  decide

/-- Claim C3: evaluated at the repository test's own header set
(`FirstName`, `LastName`, `Email`, so N = 3) on a tab-delimited run,
the second line of the output file is the empty string — the spacer row
is encoded as a bare `"\n"` — and not the `N-1 = 2` delimiter
characters the claim (and the repository's own test, line 43 of
test_tab_delimited_generator.py) expect. -/
theorem spacer_line_is_bare_newline :
    delim_generate DEFAULT_FLUSH_BYTES "tsv" none (some 1) none constGen
        ["FirstName", "LastName", "Email"] 3 =
      some (.done "FirstName\tLastName\tEmail\n\nx1\ty\tz\n"
        ⟨"FirstName\tLastName\tEmail\n\nx1\ty\tz\n", "", 0, 33, 1, none, 0⟩) ∧
    (splitNL "FirstName\tLastName\tEmail\n\nx1\ty\tz\n").getD 1 "MISSING" = "" ∧
    ("" : String) ≠ "\t\t" := by
  decide

/-- Claim C4: a request with no size constraint, a positive row target,
non-empty headers and a matching destination extension does not reach
the writer: `GenerationService.generate` evaluates
`request.size_constraint.target_bytes` unconditionally, which raises
`AttributeError` when `size_constraint` is `None`, instead of
delegating. -/
theorem service_attribute_error_without_size_constraint :
    service_generate defaultRegisteredTypes
        ⟨"out.csv", "csv", ["Name"], none, some 5⟩ = .attributeError ∧
    service_generate defaultRegisteredTypes
        ⟨"out.csv", "csv", ["Name"], none, some 5⟩ ≠ .delegated "csv" := by
  decide

/-- Claim C7: a row of empty cells (or the empty row) is always encoded
as the single byte `"\n"`, for every delimiter and width; and for the
writer's delimiters it never equals `delimiter*(N-1) + "\n"` for any
width `N ≥ 2`. -/
theorem empty_row_encodes_bare_newline (row : List String) (d ft : String) (n : Nat)
    (hrow : ∀ c ∈ row, c = "") (hn : 2 ≤ n) :
    encode_row row d = "\n" ∧
    encode_row (List.replicate n "") (delimiter_for ft) ≠
      strRepeat (delimiter_for ft) (n - 1) ++ "\n" := by
  refine ⟨encode_row_all_empty d hrow, ?_⟩
  have h1 : encode_row (List.replicate n "") (delimiter_for ft) = "\n" :=
    encode_row_all_empty _ (fun c hcm => List.eq_of_mem_replicate hcm)
  rw [h1]
  intro hEq
  have hlen := congrArg utf8Len hEq
  rw [utf8Len_nl, utf8Len_append, utf8Len_strRepeat, utf8Len_delimiter_for,
    utf8Len_nl] at hlen
  omega

theorem empty_row_encodes_bare_newline_witness :
    encode_row ["", ""] "," = "\n" ∧
    encode_row (List.replicate 3 "") (delimiter_for "csv") ≠
      strRepeat (delimiter_for "csv") 2 ++ "\n" :=
  empty_row_encodes_bare_newline ["", ""] "," "csv" 3 (by decide) (by decide)

theorem headerRowGo_length :
    ∀ (idx : Nat) (hs : List String), (headerRowGo idx hs).length = hs.length
  | _, [] => rfl
  | idx, _ :: t => by simp [headerRowGo, headerRowGo_length (idx + 1) t]

theorem headerRowGo_getD :
    ∀ (idx : Nat) (hs : List String) (i : Nat), i < hs.length →
      (headerRowGo idx hs).getD i "" =
        (if pyStrip (hs.getD i "") = "" then "Column_" ++ toString (idx + i)
         else pyStrip (hs.getD i ""))
  | _, [], i, h => by simp at h
  | idx, h :: t, 0, _ => by simp [headerRowGo]
  | idx, h :: t, i + 1, hlt => by
    simp only [headerRowGo, List.getD_cons_succ]
    rw [headerRowGo_getD (idx + 1) t i (by simpa using hlt)]
    have : idx + 1 + i = idx + (i + 1) := by omega
    rw [this]

/-- Claim C9: `header_row` trims every entry and replaces entries that
become empty with `Column_<1-based index>`: on the spec's example it
yields `["Column_1", "Name", "Column_3", "Id"]`, and in general the
output has the input's length with every non-blank entry preserved
(trimmed) at its original position. -/
theorem header_row_sanitation :
    header_row ["", "Name", "  ", "Id"] = ["Column_1", "Name", "Column_3", "Id"] ∧
    ∀ (hs : List String) (i : Nat), i < hs.length →
      (header_row hs).length = hs.length ∧
      (header_row hs).getD i "" =
        (if pyStrip (hs.getD i "") = "" then "Column_" ++ toString (i + 1)
         else pyStrip (hs.getD i "")) := by
  refine ⟨by decide, ?_⟩
  intro hs i h
  refine ⟨headerRowGo_length 1 hs, ?_⟩
  unfold header_row
  rw [headerRowGo_getD 1 hs i h]
  have : 1 + i = i + 1 := by omega
  rw [this]

theorem header_row_sanitation_witness :
    (1 : Nat) < (["x", " ", "Id"] : List String).length ∧
    (header_row ["x", " ", "Id"]).length = 3 ∧
    (header_row ["x", " ", "Id"]).getD 1 "" =
      (if pyStrip ((["x", " ", "Id"] : List String).getD 1 "") = ""
       then "Column_" ++ toString (1 + 1)
       else pyStrip ((["x", " ", "Id"] : List String).getD 1 "")) := by
  refine ⟨by decide, ?_⟩
  have h := header_row_sanitation.2 ["x", " ", "Id"] 1 (by decide)
  exact ⟨h.1, h.2⟩

theorem excelStep_sheet_rows (row : List String) (st : ExcelSt) :
    (excelStep row st).sheet_row_count = st.sheet_row_count + 1 := rfl

theorem excelStep_data_rows (row : List String) (st : ExcelSt) :
    (excelStep row st).data_rows_written = st.data_rows_written + 1 := rfl

theorem excelStep_tracker (row : List String) (st : ExcelSt) :
    (excelStep row st).tracker =
      st.tracker.map fun tr => tr.register (estimate_row_bytes row) := rfl

theorem excelStep_sheet_index (row : List String) (st : ExcelSt) :
    (excelStep row st).sheet_index = st.sheet_index := rfl

theorem excelStep_overflow (row : List String) (st : ExcelSt) :
    (excelStep row st).overflow_transitions = st.overflow_transitions := rfl

theorem excelLoop_row_limit (hrow srow : List String) (trg : Int)
    (cancel : Option (Nat → Bool)) (rows : Nat → List String)
    (hc : probeNeverFires cancel) :
    ∀ (fuel i : Nat) (st : ExcelSt), st.tracker = none →
      st.sheet_row_count ≤ MAX_EXCEL_ROWS →
      (st.data_rows_written : Int) +
          ((MAX_EXCEL_ROWS - st.sheet_row_count : Nat) : Int) < trg →
      MAX_EXCEL_ROWS - st.sheet_row_count < fuel →
      ∃ fin, excelLoop false hrow srow (some trg) cancel rows fuel i st =
          some (.finishedL fin true) ∧
        fin.data_rows_written =
          st.data_rows_written + (MAX_EXCEL_ROWS - st.sheet_row_count) ∧
        fin.sheet_row_count = MAX_EXCEL_ROWS ∧
        fin.sheet_index = st.sheet_index ∧
        fin.overflow_transitions = st.overflow_transitions ∧
        fin.tracker = none := by
  intro fuel
  induction fuel with
  | zero => intro i st _ _ _ h; omega
  | succ fuel ih =>
    intro i st ht hsrc hlt hfuel
    set st' : ExcelSt := { st with probe_calls := st.probe_calls + probeBump cancel }
      with hst'
    have hst'fields : st'.sheet_row_count = st.sheet_row_count ∧
        st'.sheet_index = st.sheet_index ∧ st'.tracker = st.tracker ∧
        st'.data_rows_written = st.data_rows_written ∧
        st'.overflow_transitions = st.overflow_transitions := ⟨rfl, rfl, rfl, rfl, rfl⟩
    simp only [excelLoop, hc st.probe_calls, Bool.false_eq_true, if_false, ← hst']
    by_cases hlim : MAX_EXCEL_ROWS ≤ st.sheet_row_count
    · have heqmax : st.sheet_row_count = MAX_EXCEL_ROWS := by omega
      rw [if_pos (by show MAX_EXCEL_ROWS ≤ st'.sheet_row_count; rw [hst'fields.1]; omega)]
      refine ⟨st', rfl, ?_, ?_, hst'fields.2.1, hst'fields.2.2.2.2, ?_⟩
      · rw [hst'fields.2.2.2.1, heqmax]
        omega
      · rw [hst'fields.1, heqmax]
      · rw [hst'fields.2.2.1, ht]
    · rw [if_neg (by rw [hst'fields.1]; omega)]
      set st2 := excelStep (rows i) st' with hst2
      have h2tr : st2.tracker = none := by
        rw [hst2, excelStep_tracker, hst'fields.2.2.1, ht]
        rfl
      have h2src : st2.sheet_row_count = st.sheet_row_count + 1 := by
        rw [hst2, excelStep_sheet_rows, hst'fields.1]
      have h2dw : st2.data_rows_written = st.data_rows_written + 1 := by
        rw [hst2, excelStep_data_rows, hst'fields.2.2.2.1]
      have hrows : decide (trg ≤ (st2.data_rows_written : Int)) = false := by
        apply decide_eq_false
        rw [h2dw]
        push_cast
        push_cast at hlt
        omega
      simp only [h2tr, hrows, Bool.or_false, Bool.false_eq_true, if_false]
      obtain ⟨fin, heq, hdw, hsrcf, hsi, hov, htr⟩ :=
        ih (i + 1) st2 h2tr (by omega) (by rw [h2dw, h2src]; push_cast; push_cast at hlt; omega)
          (by omega)
      refine ⟨fin, heq, ?_, hsrcf, ?_, ?_, htr⟩
      · rw [hdw, h2dw, h2src]
        omega
      · rw [hsi, hst2, excelStep_sheet_index, hst'fields.2.1]
      · rw [hov, hst2, excelStep_overflow, hst'fields.2.2.2.2]

/-- Claim C5: a spreadsheet run with a row target above 1,048,574, sheet
overflow disabled, no size constraint (row mode), and a probe that
never fires appends exactly `1,048,576 - 2 = 1,048,574` data rows to
the single sheet "Data" (header and spacer fill the other two rows),
emits the in-loop limit message (`limit_enforced`) and the post-loop
truncation-warning message, and stops at the limit. -/
theorem excel_truncates_at_row_limit (trg : Int) (cancel : Option (Nat → Bool))
    (rg : RowGen) (hs : List String) (fuel : Nat)
    (hc : probeNeverFires cancel) (htr : 1048574 < trg) (hfuel : 1048575 < fuel) :
    ∃ st, excel_generate false none (some trg) cancel rg hs fuel =
        some (.saved st true false true) ∧
      st.data_rows_written = 1048574 ∧
      st.sheet_row_count = MAX_EXCEL_ROWS ∧
      st.sheet_index = 1 ∧
      excelSheetTitle st.sheet_index = "Data" := by
  simp only [excel_generate, excelStartNewSheet, Option.map_none']
  obtain ⟨fin, heq, hdw, hsrcf, hsi, hov, htrk⟩ :=
    excelLoop_row_limit (rg.header_row hs) ((rg.header_row hs).map fun _ => "") trg cancel
      (rg.data_rows hs) hc fuel 1
      ⟨2, 1, 0, 0 + estimate_row_bytes (rg.header_row hs) +
        estimate_row_bytes ((rg.header_row hs).map fun _ => ""), none, 0, 0⟩
      rfl (by norm_num [MAX_EXCEL_ROWS]) (by push_cast; norm_num [MAX_EXCEL_ROWS]; omega)
      (by norm_num [MAX_EXCEL_ROWS]; omega)
  rw [heq]
  have hdw' : fin.data_rows_written = 1048574 := by
    rw [hdw]
    norm_num [MAX_EXCEL_ROWS]
  refine ⟨fin, ?_, hdw', hsrcf, by rw [hsi], by rw [hsi]; rfl⟩
  have hdec : decide ((fin.data_rows_written : Int) < trg) = true := by
    apply decide_eq_true
    rw [hdw']
    push_cast
    omega
  simp [htrk, hdec]

theorem excelLoop_single_sheet (hrow srow : List String)
    (target_rows : Option Int) (cancel : Option (Nat → Bool))
    (rows : Nat → List String) :
    ∀ (fuel i : Nat) (st fin : ExcelSt) (b : Bool),
      st.sheet_row_count ≤ MAX_EXCEL_ROWS →
      excelLoop false hrow srow target_rows cancel rows fuel i st =
        some (.finishedL fin b) →
      fin.sheet_index = st.sheet_index ∧
      fin.overflow_transitions = st.overflow_transitions ∧
      fin.data_rows_written + st.sheet_row_count ≤
        st.data_rows_written + MAX_EXCEL_ROWS := by
  intro fuel
  induction fuel with
  | zero =>
    intro i st fin b _ heq
    simp [excelLoop] at heq
  | succ fuel ih =>
    intro i st fin b hsrc heq
    simp only [excelLoop] at heq
    by_cases hpv : probeValue cancel st.probe_calls = true
    · rw [if_pos hpv] at heq
      simp at heq
    · rw [if_neg hpv] at heq
      by_cases hlim : MAX_EXCEL_ROWS ≤
          ({ st with probe_calls := st.probe_calls + probeBump cancel } : ExcelSt).sheet_row_count
      · rw [if_pos hlim] at heq
        rw [if_neg (by simp)] at heq
        obtain ⟨h1, -⟩ := ExcelLoopOut.finishedL.inj (Option.some.inj heq)
        subst h1
        refine ⟨rfl, rfl, ?_⟩
        have e0 : ({ st with probe_calls := st.probe_calls + probeBump cancel } :
            ExcelSt).data_rows_written = st.data_rows_written := rfl
        rw [e0]
        omega
      · rw [if_neg hlim] at heq
        split at heq
        · obtain ⟨h1, -⟩ := ExcelLoopOut.finishedL.inj (Option.some.inj heq)
          subst h1
          refine ⟨rfl, rfl, ?_⟩
          have hsr : st.sheet_row_count < MAX_EXCEL_ROWS := by
            simpa using hlim
          have e1 : (excelStep (rows i)
              { st with probe_calls := st.probe_calls + probeBump cancel }).data_rows_written =
              st.data_rows_written + 1 := rfl
          rw [e1]
          omega
        · have hsr : st.sheet_row_count < MAX_EXCEL_ROWS := by
            simpa using hlim
          obtain ⟨h1, h2, h3⟩ := ih (i + 1)
            (excelStep (rows i) { st with probe_calls := st.probe_calls + probeBump cancel })
            fin b (by simp only [excelStep_sheet_rows]; show st.sheet_row_count + 1 ≤ _; omega)
            heq
          refine ⟨?_, ?_, ?_⟩
          · rw [h1, excelStep_sheet_index]
          · rw [h2, excelStep_overflow]
          · have e2 : (excelStep (rows i)
                { st with probe_calls := st.probe_calls + probeBump cancel }).sheet_row_count =
                st.sheet_row_count + 1 := rfl
            have e3 : (excelStep (rows i)
                { st with probe_calls := st.probe_calls + probeBump cancel }).data_rows_written =
                st.data_rows_written + 1 := rfl
            rw [e2, e3] at h3
            omega

/-- Claim C10: the public `FileGenerationRequest` dataclass has no
`ignore_excel_row_limit` field, so `getattr(request, ..., False)` is
`False` for every request built from it; then the sheet-overflow branch
never runs: every completed spreadsheet run saved a workbook with
exactly one sheet, titled "Data", no overflow-transition progress
message, and at most `1,048,576 - 2` data rows (truncation at the
structural limit). -/
theorem excel_public_request_single_sheet (sizeC : Option SizeConstraint)
    (target_rows : Option Int) (cancel : Option (Nat → Bool)) (rg : RowGen)
    (hs : List String) (fuel : Nat) (st : ExcelSt) (b1 b2 b3 : Bool)
    (heq : excel_generate false sizeC target_rows cancel rg hs fuel =
      some (.saved st b1 b2 b3)) :
    st.sheet_index = 1 ∧ excelSheetTitle st.sheet_index = "Data" ∧
    st.overflow_transitions = 0 ∧ st.data_rows_written ≤ 1048574 := by
  simp only [excel_generate, excelStartNewSheet] at heq
  set st1 : ExcelSt :=
    ⟨2, 0 + 1, 0, 0 + estimate_row_bytes (rg.header_row hs) +
        estimate_row_bytes ((rg.header_row hs).map fun _ => ""),
      Option.map (fun tr => (tr.register (estimate_row_bytes (rg.header_row hs))).register
          (estimate_row_bytes ((rg.header_row hs).map fun _ => "")))
        (Option.map (fun sc => SizeTracker.mk sc true 0) sizeC), 0, 0⟩ with hst1
  rcases hloop : excelLoop false (rg.header_row hs)
      ((rg.header_row hs).map fun _ => "") target_rows cancel (rg.data_rows hs) fuel 1 st1 with
    _ | out
  · rw [hloop] at heq
    simp at heq
  · rw [hloop] at heq
    rcases out with st' | ⟨st', b'⟩
    · simp at heq
    · simp only [Option.some.injEq] at heq
      obtain ⟨h1, -⟩ := ExcelOutcome.saved.inj heq
      subst h1
      obtain ⟨hsi, hov, hdw⟩ := excelLoop_single_sheet (rg.header_row hs)
        ((rg.header_row hs).map fun _ => "") target_rows cancel (rg.data_rows hs) fuel 1
        st1 st' b' (by rw [hst1]; norm_num [MAX_EXCEL_ROWS]) hloop
      rw [hst1] at hsi hov hdw
      have hsi2 : st'.sheet_index = 1 := by simpa using hsi
      have hov2 : st'.overflow_transitions = 0 := by simpa using hov
      have hdw2 : st'.data_rows_written + 2 ≤ 0 + MAX_EXCEL_ROWS := by simpa using hdw
      refine ⟨hsi2, by rw [hsi2]; rfl, hov2, ?_⟩
      simp only [MAX_EXCEL_ROWS] at hdw2
      omega

/-- Claim C8: when the cancellation probe reports true, both writers
raise `GenerationCancelled` instead of completing: the delimited writer
at the check right after the header/spacer stage, leaving exactly the
flushed header and spacer bytes on disk with no rollback; the
spreadsheet writer at the top of the first data-row iteration, before
any data row is appended (the sheet still holds only header+spacer). -/
theorem cancellation_raises (fb : Nat) (ft : String) (sizeC : Option SizeConstraint)
    (target_rows : Option Int) (rg : RowGen) (hs : List String)
    (probe : Nat → Bool) (fuel : Nat) (hp : ∀ n, probe n = true) :
    (∃ st, delim_generate fb ft sizeC target_rows (some probe) rg hs fuel =
        some (.cancelled (encode_row (rg.header_row hs) (delimiter_for ft) ++
          encode_row ((rg.header_row hs).map fun _ => "") (delimiter_for ft)) st) ∧
      st.data_rows_written = 0) ∧
    (1 ≤ fuel → ∃ st, excel_generate false sizeC target_rows (some probe) rg hs fuel =
        some (.cancelled st) ∧ st.data_rows_written = 0 ∧ st.sheet_row_count = 2) := by
  constructor
  · simp only [delim_generate, delimAppendRow, delimFlush, probeValue, hp 0, if_true]
    exact ⟨_, rfl, rfl⟩
  · intro hfuel
    obtain ⟨f, rfl⟩ : ∃ f, fuel = f + 1 := ⟨fuel - 1, by omega⟩
    simp only [excel_generate, excelStartNewSheet, excelLoop, probeValue, hp 0, if_true]
    exact ⟨_, rfl, rfl, rfl⟩

theorem cancellation_raises_witness :
    (∃ st, delim_generate DEFAULT_FLUSH_BYTES "tsv" none none (some fun _ => true)
        constGen ["A"] 1 =
        some (.cancelled (encode_row (constGen.header_row ["A"]) (delimiter_for "tsv") ++
          encode_row ((constGen.header_row ["A"]).map fun _ => "") (delimiter_for "tsv")) st) ∧
      st.data_rows_written = 0) ∧
    (∃ st, excel_generate false none none (some fun _ => true) constGen ["A"] 1 =
        some (.cancelled st) ∧ st.data_rows_written = 0 ∧ st.sheet_row_count = 2) :=
  ⟨(cancellation_raises DEFAULT_FLUSH_BYTES "tsv" none none constGen ["A"]
      (fun _ => true) 1 (fun _ => rfl)).1,
   (cancellation_raises DEFAULT_FLUSH_BYTES "tsv" none none constGen ["A"]
      (fun _ => true) 1 (fun _ => rfl)).2 (le_refl 1)⟩

theorem delim_byte_mode_bound_witness :
    ∃ f fin k, delim_generate DEFAULT_FLUSH_BYTES "tsv"
        (some ⟨100, 512⟩) none none constGen ["A"] 100 = some (.done f fin) ∧
      1 ≤ k ∧ fin.data_rows_written = k ∧
      (100 : Int) ≤ (utf8Len f : Int) ∧
      (utf8Len f : Int) - 100 <
        (utf8Len (encode_row (constGen.data_rows ["A"] k) (delimiter_for "tsv")) : Int) :=
  (delim_byte_mode_bound DEFAULT_FLUSH_BYTES "tsv" ⟨100, 512⟩ none constGen ["A"] 100
    (fun _ => rfl) (by norm_num) (by decide) (by decide) (by norm_num)).2

theorem delim_row_mode_twelve_lines_witness :
    ∃ f fin, delim_generate DEFAULT_FLUSH_BYTES "tsv" none (some 10) none constGen
        ["A"] 10 = some (.done f fin) ∧
      fin.data_rows_written = 10 ∧ countNL f = 12 ∧ ∃ s, f = s ++ "\n" :=
  delim_row_mode_twelve_lines DEFAULT_FLUSH_BYTES "tsv" none constGen ["A"] 10
    (fun _ => rfl) (by decide) (by decide)
    (by intro j h1 h2; interval_cases j <;> decide) (le_refl 10)

theorem excel_truncates_at_row_limit_witness :
    ∃ st, excel_generate false none (some 1048575) none constGen ["A"] 1048576 =
        some (.saved st true false true) ∧
      st.data_rows_written = 1048574 ∧
      st.sheet_row_count = MAX_EXCEL_ROWS ∧
      st.sheet_index = 1 ∧
      excelSheetTitle st.sheet_index = "Data" :=
  excel_truncates_at_row_limit 1048575 none constGen ["A"] 1048576
    (fun _ => rfl) (by norm_num) (by norm_num)

theorem excel_public_request_single_sheet_witness :
    (⟨3, 1, 1, 45, none, 0, 0⟩ : ExcelSt).sheet_index = 1 ∧
    excelSheetTitle (⟨3, 1, 1, 45, none, 0, 0⟩ : ExcelSt).sheet_index = "Data" ∧
    (⟨3, 1, 1, 45, none, 0, 0⟩ : ExcelSt).overflow_transitions = 0 ∧
    (⟨3, 1, 1, 45, none, 0, 0⟩ : ExcelSt).data_rows_written ≤ 1048574 :=
  excel_public_request_single_sheet none (some 1) none constGen ["A"] 2
    ⟨3, 1, 1, 45, none, 0, 0⟩ false false false (by decide)

end FileGen
